import Mathlib

/-!
Verification of the filtered-pagination client in
`dynamic-pagination-with-filters.js` (class `DynamicPaginationWithFilters`,
abbreviated `DPWF` below) and `query-master.js` (class `QueryMaster`,
abbreviated `QM` below).

The JavaScript is shallowly embedded: JS values appearing in filter state and
responses become the inductive type `JVal`; `URLSearchParams` becomes an
association list of string pairs with the `set` replace-or-append semantics;
the mutable component instance (`this.config.requestFilters`, the two managed
DOM regions, the history stack) becomes the record `PagerState`, and every
observable side effect (loading class toggles, the fetch request, pagination
region edits, callback invocations, history pushes, console errors, alerts)
is additionally recorded in an event trace.  The network is an explicit
`FetchOutcome` parameter: the environment's answer to the single `fetch` call
a `loadData` cycle performs.
-/

/-- A JavaScript value as it can occur in filter state or in the parsed JSON
response: `null`, `undefined`, strings, (integer) numbers, booleans, arrays
and plain objects (association lists of fields, in insertion order). -/
inductive JVal where
  | vNull
  | vUndef
  | vStr (s : String)
  | vNum (n : Int)
  | vBool (b : Bool)
  | vArr (elems : List JVal)
  | vObj (fields : List (String × JVal))

/-- JavaScript truthiness: `null`, `undefined`, `""`, `0` and `false` are
falsy; every other value (including any array or object) is truthy. -/
def truthy : JVal → Bool
  | .vNull => false
  | .vUndef => false
  | .vStr s => !(s == "")
  | .vNum n => !(n == 0)
  | .vBool b => b
  | .vArr _ => true
  | .vObj _ => true

/-- Strict equality against the number literal `1` (`value === 1`). -/
def isOne : JVal → Bool
  | .vNum n => n == 1
  | _ => false

/-- `value == null` in JavaScript: loose equality with `null` holds exactly
for `null` and `undefined`. -/
def isNullish : JVal → Bool
  | .vNull => true
  | .vUndef => true
  | _ => false

mutual

/-- JavaScript `String(value)` coercion as `URLSearchParams.set` applies it
to the second argument. -/
def jvalToString : JVal → String
  | .vNull => "null"
  | .vUndef => "undefined"
  | .vStr s => s
  | .vNum n => toString n
  | .vBool b => if b then "true" else "false"
  | .vArr elems => String.intercalate "," (jvalListToString elems)
  | .vObj _ => "[object Object]"

/-- Array elements under `Array.prototype.toString`: `null` and `undefined`
elements become the empty string, every other element its string coercion. -/
def jvalListToString : List JVal → List String
  | [] => []
  | .vNull :: rest => "" :: jvalListToString rest
  | .vUndef :: rest => "" :: jvalListToString rest
  | v :: rest => jvalToString v :: jvalListToString rest

end

/-- The accumulated query string of a URL, as the ordered list of its
`(key, value)` search parameters. -/
abbrev Params := List (String × String)

/-- First value stored under a key, `URLSearchParams.get`-style. -/
def paramsLookup : Params → String → Option String
  | [], _ => none
  | (k, v) :: rest, k2 => if k = k2 then some v else paramsLookup rest k2

/-- Drop every pair stored under a key. -/
def removeParam : Params → String → Params
  | [], _ => []
  | (k, v) :: rest, k2 =>
    if k = k2 then removeParam rest k2 else (k, v) :: removeParam rest k2

/-- `URLSearchParams.set`: replace the first pair under the key in place,
drop any later duplicates, or append when the key is absent. -/
def setParam : Params → String → String → Params
  | [], k2, v2 => [(k2, v2)]
  | (k, v) :: rest, k2, v2 =>
    if k = k2 then (k2, v2) :: removeParam rest k2
    else (k, v) :: setParam rest k2 v2

/-- First value stored under a key in a filter object (JS property lookup on
an object embedded as an association list with distinct keys). -/
def lookupVal : List (String × JVal) → String → Option JVal
  | [], _ => none
  | (k, v) :: rest, k2 => if k = k2 then some v else lookupVal rest k2

/-- Object spread `{ ...a, ...b }`: keys of `a` keep their position, their
value overridden by `b` when `b` also has the key; keys only in `b` are
appended in `b`'s order. -/
def spreadMerge (a b : List (String × JVal)) : List (String × JVal) :=
  a.map (fun p => match lookupVal b p.1 with | some v => (p.1, v) | none => p) ++
    b.filter (fun p => (lookupVal a p.1).isNone)

/-- The bracketed key accumulation of `DPWF.buildUrl`:
`` prefix ? `${prefix}[${key}]` : key `` (the empty string is falsy). -/
def mkKey (pre k : String) : String :=
  if pre = "" then k else pre ++ "[" ++ k ++ "]"

/-- The recursive helper `appendQueryParams` inside
`DynamicPaginationWithFilters.buildUrl` (src/dynamic-pagination-with-filters.js
lines 91-106): skip nullish values, recurse into non-array objects with a
bracketed key prefix, and set a flat value when it is truthy or is the `page`
key with value strictly `1`. -/
def DPWF.appendQueryParams : String → List (String × JVal) → Params → Params
  | _, [], acc => acc
  | pre, (_, .vNull) :: rest, acc => DPWF.appendQueryParams pre rest acc
  | pre, (_, .vUndef) :: rest, acc => DPWF.appendQueryParams pre rest acc
  | pre, (k, .vObj fields) :: rest, acc =>
    DPWF.appendQueryParams pre rest
      (DPWF.appendQueryParams (mkKey pre k) fields acc)
  | pre, (k, v) :: rest, acc =>
    DPWF.appendQueryParams pre rest
      (if truthy v || (k == "page" && isOne v) then
        setParam acc (mkKey pre k) (jvalToString v)
      else acc)

/-- `DynamicPaginationWithFilters.buildUrl`, restricted to the query string it
produces for a filter object (the base URL carries no search parameters of
its own). -/
def DPWF.buildUrlParams (fs : List (String × JVal)) : Params :=
  DPWF.appendQueryParams "" fs []

/-- The `Object.entries(filters).forEach` loop of `QueryMaster.buildUrl`
(src/query-master.js lines 53-57): set a flat value when it is truthy,
unless it is the `page` key with value strictly `1`. -/
def QM.appendFlatParams : List (String × JVal) → Params → Params
  | [], acc => acc
  | (k, v) :: rest, acc =>
    QM.appendFlatParams rest
      (if truthy v && (!(k == "page") || !(isOne v)) then
        setParam acc k (jvalToString v)
      else acc)

/-- `QueryMaster.buildUrl`, restricted to the query string it produces. -/
def QM.buildUrlParams (fs : List (String × JVal)) : Params :=
  QM.appendFlatParams fs []

/-- A parsed JSON success response: `rows` (HTML for the wrapper), an
optional `pagination` HTML fragment and an optional auxiliary `data`
payload. -/
structure ApiResponse where
  rows : String
  pagination : Option String
  data : Option JVal

/-- Truthiness of an optional string field of the response: the field is
falsy when absent and when it is the empty string. -/
def optStrTruthy : Option String → Bool
  | none => false
  | some s => !(s == "")

/-- Truthiness of the optional `data` field of the response. -/
def optJValTruthy : Option JVal → Bool
  | none => false
  | some v => truthy v

/-- The environment's answer to the one `fetch` a load cycle performs:
the request may fail in transit, return a non-2xx status, return a body that
is not valid JSON, or succeed with a parsed response. -/
inductive FetchOutcome where
  | networkError (msg : String)
  | httpError (status : Nat)
  | parseError (msg : String)
  | success (resp : ApiResponse)

/-- Whether the outcome makes the fetch cycle throw. -/
def isErrorOutcome : FetchOutcome → Bool
  | .success _ => false
  | _ => true

/-- The message of the error thrown for a failing outcome (for a non-2xx
status it is the `HTTP error! status: ...` message `fetchData` builds). -/
def fetchErrorMessage : FetchOutcome → String
  | .networkError msg => msg
  | .httpError status => "HTTP error! status: " ++ toString status
  | .parseError msg => msg
  | .success _ => ""

/-- An observable side effect of the component, recorded in order. -/
inductive Event where
  | showLoadingClass
  | hideLoadingClass
  | fetchRequest (query : Params)
  | paginationReplaced (html : String)
  | paginationInserted (html : String)
  | paginationRemoved
  | callbackInvoked (payload : JVal)
  | historyPushed (page : Option JVal) (query : Params)
  | scrolled
  | consoleError (msg : String)
  | alertShown (msg : String)

/-- The mutable state of one component instance together with the DOM it
manages: the persistent filter object `this.config.requestFilters`, whether a
`dataCallback` function was configured, the wrapper region's content and
loading class, the pagination region located by the configured selector
(`none` when no such element exists), the browser history stack, and the
trace of observable effects. -/
structure PagerState where
  requestFilters : List (String × JVal)
  hasDataCallback : Bool
  wrapperHTML : String
  wrapperLoading : Bool
  paginationSection : Option String
  historyStack : List (Option JVal × Params)
  events : List Event

/-- `showLoading`: add the `data-loading` class to the wrapper. -/
def DPWF.showLoading (s : PagerState) : PagerState :=
  { s with wrapperLoading := true, events := s.events ++ [Event.showLoadingClass] }

/-- `hideLoading`: remove the `data-loading` class from the wrapper. -/
def DPWF.hideLoading (s : PagerState) : PagerState :=
  { s with wrapperLoading := false, events := s.events ++ [Event.hideLoadingClass] }

/-- `handleError`: log the error and show a blocking alert. -/
def DPWF.handleError (s : PagerState) (msg : String) : PagerState :=
  { s with events := s.events ++
      [Event.consoleError msg, Event.alertShown "Error loading data. Please try again."] }

/-- `updateBrowserHistory`: push `{ page: this.config.requestFilters.page }`
with the built URL. -/
def DPWF.updateBrowserHistory (s : PagerState) (q : Params) : PagerState :=
  { s with
    historyStack := s.historyStack ++ [(lookupVal s.requestFilters "page", q)],
    events := s.events ++ [Event.historyPushed (lookupVal s.requestFilters "page") q] }

/-- `smoothScrollToContainer`: scroll the viewport to the container. -/
def DPWF.smoothScrollToContainer (s : PagerState) : PagerState :=
  { s with events := s.events ++ [Event.scrolled] }

/-- `fetchData` seen from its caller: either the parsed JSON body or the
thrown error. -/
def DPWF.fetchData : FetchOutcome → Except String ApiResponse
  | .networkError msg => .error msg
  | .httpError status => .error ("HTTP error! status: " ++ toString status)
  | .parseError msg => .error msg
  | .success resp => .ok resp

/-- `DynamicPaginationWithFilters.updateUI` (lines 128-150): write `rows`
into the wrapper; if `response.pagination` is truthy, replace the existing
pagination region or insert the fragment after the wrapper; if it is falsy
and a region exists, remove it; finally, if `response.data` is truthy and a
`dataCallback` function was configured, invoke the callback with `data`. -/
def DPWF.updateUI (s : PagerState) (r : ApiResponse) : PagerState :=
  let s1 := { s with wrapperHTML := r.rows }
  let s2 :=
    if optStrTruthy r.pagination then
      match s1.paginationSection with
      | some _ =>
        { s1 with paginationSection := r.pagination,
                  events := s1.events ++ [Event.paginationReplaced (r.pagination.getD "")] }
      | none =>
        { s1 with paginationSection := r.pagination,
                  events := s1.events ++ [Event.paginationInserted (r.pagination.getD "")] }
    else
      match s1.paginationSection with
      | some _ =>
        { s1 with paginationSection := none,
                  events := s1.events ++ [Event.paginationRemoved] }
      | none => s1
  if optJValTruthy r.data && s2.hasDataCallback then
    { s2 with events := s2.events ++ [Event.callbackInvoked (r.data.getD JVal.vNull)] }
  else s2

/-- `DynamicPaginationWithFilters.loadData` (lines 69-84): spread the delta
into the filter state, build the URL, then `try { showLoading; fetch;
updateUI; updateBrowserHistory; smoothScroll } catch { handleError } finally
{ hideLoading }`.  The function is total: the catch-all swallows every thrown
error, so nothing propagates to the caller. -/
def DPWF.loadData (s : PagerState) (filters : List (String × JVal))
    (o : FetchOutcome) : PagerState :=
  let s1 := { s with requestFilters := spreadMerge s.requestFilters filters }
  let q := DPWF.buildUrlParams s1.requestFilters
  let s2 := DPWF.showLoading s1
  let s3 := { s2 with events := s2.events ++ [Event.fetchRequest q] }
  match DPWF.fetchData o with
  | .ok r =>
    DPWF.hideLoading (DPWF.smoothScrollToContainer
      (DPWF.updateBrowserHistory (DPWF.updateUI s3 r) q))
  | .error msg =>
    DPWF.hideLoading (DPWF.handleError s3 msg)

/-- `DynamicPaginationWithFilters.setFilters` (lines 190-192): pure
delegation to `loadData`. -/
def DPWF.setFilters (s : PagerState) (filters : List (String × JVal))
    (o : FetchOutcome) : PagerState :=
  DPWF.loadData s filters o

/-- The filter state the `DynamicPaginationWithFilters` constructor installs
when the caller's config does not override `requestFilters` (lines 45-47),
paired with a fresh DOM. -/
def DPWF.initState (hasCb : Bool) : PagerState :=
  { requestFilters := [("page", JVal.vNum 1)]
    hasDataCallback := hasCb
    wrapperHTML := ""
    wrapperLoading := false
    paginationSection := none
    historyStack := []
    events := [] }

/-- `QueryMaster.showLoading`. -/
def QM.showLoading (s : PagerState) : PagerState :=
  { s with wrapperLoading := true, events := s.events ++ [Event.showLoadingClass] }

/-- `QueryMaster.hideLoading`. -/
def QM.hideLoading (s : PagerState) : PagerState :=
  { s with wrapperLoading := false, events := s.events ++ [Event.hideLoadingClass] }

/-- `QueryMaster.handleError`. -/
def QM.handleError (s : PagerState) (msg : String) : PagerState :=
  { s with events := s.events ++
      [Event.consoleError msg, Event.alertShown "Error loading data. Please try again."] }

/-- `QueryMaster.updateBrowserHistory`. -/
def QM.updateBrowserHistory (s : PagerState) (q : Params) : PagerState :=
  { s with
    historyStack := s.historyStack ++ [(lookupVal s.requestFilters "page", q)],
    events := s.events ++ [Event.historyPushed (lookupVal s.requestFilters "page") q] }

/-- `QueryMaster.smoothScrollToContainer`. -/
def QM.smoothScrollToContainer (s : PagerState) : PagerState :=
  { s with events := s.events ++ [Event.scrolled] }

/-- `QueryMaster.fetchData` seen from its caller. -/
def QM.fetchData : FetchOutcome → Except String ApiResponse
  | .networkError msg => .error msg
  | .httpError status => .error ("HTTP error! status: " ++ toString status)
  | .parseError msg => .error msg
  | .success resp => .ok resp

/-- `QueryMaster.updateUI` (src/query-master.js lines 78-91): same as the
`DPWF` variant but with no `data` callback step. -/
def QM.updateUI (s : PagerState) (r : ApiResponse) : PagerState :=
  let s1 := { s with wrapperHTML := r.rows }
  if optStrTruthy r.pagination then
    match s1.paginationSection with
    | some _ =>
      { s1 with paginationSection := r.pagination,
                events := s1.events ++ [Event.paginationReplaced (r.pagination.getD "")] }
    | none =>
      { s1 with paginationSection := r.pagination,
                events := s1.events ++ [Event.paginationInserted (r.pagination.getD "")] }
  else
    match s1.paginationSection with
    | some _ =>
      { s1 with paginationSection := none,
                events := s1.events ++ [Event.paginationRemoved] }
    | none => s1

/-- `QueryMaster.loadData` (src/query-master.js lines 32-47). -/
def QM.loadData (s : PagerState) (filters : List (String × JVal))
    (o : FetchOutcome) : PagerState :=
  let s1 := { s with requestFilters := spreadMerge s.requestFilters filters }
  let q := QM.buildUrlParams s1.requestFilters
  let s2 := QM.showLoading s1
  let s3 := { s2 with events := s2.events ++ [Event.fetchRequest q] }
  match QM.fetchData o with
  | .ok r =>
    QM.hideLoading (QM.smoothScrollToContainer
      (QM.updateBrowserHistory (QM.updateUI s3 r) q))
  | .error msg =>
    QM.hideLoading (QM.handleError s3 msg)

/-- `QueryMaster.setFilters` (src/query-master.js lines 131-133): pure
delegation to `loadData`. -/
def QM.setFilters (s : PagerState) (filters : List (String × JVal))
    (o : FetchOutcome) : PagerState :=
  QM.loadData s filters o

/-- `QueryMaster.handlePaginationClick` (src/query-master.js lines 93-101),
given the query parameters of the clicked link's `href` when the click hit an
anchor inside the pagination region (`none` when `closest` found no such
link): prevent navigation, read the link's `page` parameter as a string
(`null` when absent) and re-trigger `loadData` with it. -/
def QM.handlePaginationClick (s : PagerState) (link : Option Params)
    (o : FetchOutcome) : PagerState :=
  match link with
  | none => s
  | some href =>
    let page := match paramsLookup href "page" with
      | some p => JVal.vStr p
      | none => JVal.vNull
    QM.loadData s [("page", page)] o

/-- The filter state the `QueryMaster` constructor installs when the caller's
config does not override `requestFilters` (src/query-master.js lines 9-14). -/
def QM.initState : PagerState :=
  { requestFilters :=
      [("page", JVal.vNum 1), ("contentType", JVal.vStr ""),
       ("sortOrder", JVal.vStr ""), ("searchQuery", JVal.vStr "")]
    hasDataCallback := false
    wrapperHTML := ""
    wrapperLoading := false
    paginationSection := none
    historyStack := []
    events := [] }

/-- The leaves of a filter object in depth-first order: for each non-object
value (arrays included, since `buildUrl` treats them as flat), the list of
keys from the root down to it together with the value.  `null` and
`undefined` values are leaves here; whether they are emitted is a property
of `buildUrl`, not of the tree. -/
def leavesOf : List (String × JVal) → List (List String × JVal)
  | [] => []
  | (k, .vObj fields) :: rest =>
    (leavesOf fields).map (fun q => (k :: q.1, q.2)) ++ leavesOf rest
  | (k, v) :: rest => ([k], v) :: leavesOf rest

/-- The bracket-concatenated rendering of a root-to-leaf key path:
`key`, `key[subkey]`, `key[subkey][subsubkey]`, to arbitrary depth. -/
def bracketKey : List String → String
  | [] => ""
  | k :: ks => ks.foldl (fun acc s => acc ++ "[" ++ s ++ "]") k

/-- Fold a key path onto an accumulated bracketed prefix with `mkKey`. -/
def mkKeyPath (pre : String) : List String → String
  | [] => pre
  | k :: ks => mkKeyPath (mkKey pre k) ks

/-- The parameters `DPWF.appendQueryParams` emits for a subtree, as a plain
list (no `set` deduplication): one pair per truthy leaf, in depth-first
order, keyed by the accumulated bracketed key. -/
def truthyLeafParams : String → List (String × JVal) → Params
  | _, [] => []
  | pre, (_, .vNull) :: rest => truthyLeafParams pre rest
  | pre, (_, .vUndef) :: rest => truthyLeafParams pre rest
  | pre, (k, .vObj fields) :: rest =>
    truthyLeafParams (mkKey pre k) fields ++ truthyLeafParams pre rest
  | pre, (k, v) :: rest =>
    (if truthy v || (k == "page" && isOne v) then
      [(mkKey pre k, jvalToString v)]
    else []) ++ truthyLeafParams pre rest

/-- Whether an event is an invocation of the configured `dataCallback`. -/
def isCallbackEvent : Event → Bool
  | .callbackInvoked _ => true
  | _ => false

/-- Whether an event is a mutation of the pagination region. -/
def isPagEvent : Event → Bool
  | .paginationReplaced _ => true
  | .paginationInserted _ => true
  | .paginationRemoved => true
  | _ => false

theorem data_append_str (a b : String) : (a ++ b).data = a.data ++ b.data := by
  cases a; cases b; rfl

theorem mkKey_bracket_mem {pre : String} (k : String) (h : pre ≠ "") :
    '[' ∈ (mkKey pre k).data := by
  rw [mkKey, if_neg h, data_append_str, data_append_str, data_append_str]
  simp

theorem mkKey_ne_empty {pre : String} (k : String) (h : pre ≠ "") :
    mkKey pre k ≠ "" := by
  intro hc
  have := mkKey_bracket_mem k h
  rw [hc] at this
  simp at this

theorem mkKey_no_bracket {pre k s : String} (h : pre ≠ "")
    (hs : '[' ∉ s.data) : mkKey pre k ≠ s := by
  intro hc
  exact hs (hc ▸ mkKey_bracket_mem k h)

theorem paramsLookup_setParam_self (ps : Params) (k v : String) :
    paramsLookup (setParam ps k v) k = some v := by
  induction ps with
  | nil => simp [setParam, paramsLookup]
  | cons p rest ih =>
    by_cases h : p.1 = k
    · simp [setParam, h, paramsLookup]
    · simp [setParam, h, paramsLookup, ih]

theorem paramsLookup_removeParam_ne (ps : Params) {k k2 : String}
    (h : k2 ≠ k) : paramsLookup (removeParam ps k) k2 = paramsLookup ps k2 := by
  induction ps with
  | nil => rfl
  | cons p rest ih =>
    by_cases hp : p.1 = k
    · simp [removeParam, hp, paramsLookup, Ne.symm h, ih]
    · simp only [removeParam, hp, if_false, paramsLookup]
      by_cases hk2 : p.1 = k2 <;> simp [hk2, ih]

theorem paramsLookup_setParam_ne (ps : Params) {k k2 : String} (v : String)
    (h : k2 ≠ k) : paramsLookup (setParam ps k v) k2 = paramsLookup ps k2 := by
  induction ps with
  | nil => simp [setParam, paramsLookup, Ne.symm h]
  | cons p rest ih =>
    by_cases hp : p.1 = k
    · simp [setParam, hp, paramsLookup, Ne.symm h, paramsLookup_removeParam_ne _ h]
    · simp only [setParam, hp, if_false, paramsLookup]
      by_cases hk2 : p.1 = k2 <;> simp [hk2, ih]

theorem setParam_of_not_mem {ps : Params} {k : String} (v : String)
    (h : k ∉ ps.map Prod.fst) : setParam ps k v = ps ++ [(k, v)] := by
  induction ps with
  | nil => rfl
  | cons p rest ih =>
    simp only [List.map_cons, List.mem_cons] at h
    push_neg at h
    simp [setParam, Ne.symm h.1, ih h.2]

theorem paramsLookup_of_mem_of_nodup {ps : Params} {k v : String}
    (hnd : (ps.map Prod.fst).Nodup) (hm : (k, v) ∈ ps) :
    paramsLookup ps k = some v := by
  induction ps with
  | nil => simp at hm
  | cons p rest ih =>
    simp only [List.map_cons, List.nodup_cons] at hnd
    rcases List.mem_cons.mp hm with h | h
    · simp [← h, paramsLookup]
    · have hne : p.1 ≠ k := by
        intro hc
        exact hnd.1 (hc ▸ List.mem_map_of_mem Prod.fst h)
      simp [paramsLookup, hne, ih hnd.2 h]

theorem paramsLookup_eq_none_iff {ps : Params} {k : String} :
    paramsLookup ps k = none ↔ k ∉ ps.map Prod.fst := by
  induction ps with
  | nil => simp [paramsLookup]
  | cons p rest ih =>
    by_cases h : p.1 = k
    · simp [paramsLookup, h]
    · simp [paramsLookup, h, ih, Ne.symm h]

theorem countP_key_eq_one {ps : Params} {k v : String}
    (hnd : (ps.map Prod.fst).Nodup) (hm : (k, v) ∈ ps) :
    ps.countP (fun q => q.1 == k) = 1 := by
  induction ps with
  | nil => simp at hm
  | cons p rest ih =>
    simp only [List.map_cons, List.nodup_cons] at hnd
    rcases List.mem_cons.mp hm with h | h
    · rw [List.countP_cons]
      have hk : p.1 = k := by rw [← h]
      have hrest : rest.countP (fun q => q.1 == k) = 0 := by
        rw [List.countP_eq_zero]
        intro q hq hqk
        simp only [beq_iff_eq] at hqk
        exact hnd.1 (hk ▸ hqk ▸ List.mem_map_of_mem Prod.fst hq)
      simp [hrest, hk]
    · have hne : p.1 ≠ k := by
        intro hc
        exact hnd.1 (hc ▸ List.mem_map_of_mem Prod.fst h)
      rw [List.countP_cons]
      simp [hne, ih hnd.2 h]

theorem emit_cond_eq_truthy (k : String) (v : JVal) :
    (truthy v || (k == "page" && isOne v)) = truthy v := by
  cases v with
  | vNum n =>
    by_cases h : n = 1 <;> simp [truthy, isOne, h]
  | _ => simp [truthy, isOne]

/-- Every key `truthyLeafParams` produces is either a top-level key of the
filter object (when the prefix is empty) or contains an opening bracket. -/
theorem mem_keys_truthyLeafParams {x : String} (pre : String)
    (fs : List (String × JVal)) (hne : pre = "" → "" ∉ fs.map Prod.fst)
    (hx : x ∈ (truthyLeafParams pre fs).map Prod.fst) :
    (pre = "" ∧ x ∈ fs.map Prod.fst) ∨ '[' ∈ x.data := by
  revert hne hx
  induction pre, fs using truthyLeafParams.induct with
  | case1 pre =>
    intro _ hx
    simp [truthyLeafParams] at hx
  | case2 pre k rest ih =>
    intro hne hx
    rw [truthyLeafParams] at hx
    rcases ih (fun h => fun hm => hne h (by simp [hm])) hx with ⟨h1, h2⟩ | h
    · exact Or.inl ⟨h1, by simp [h2]⟩
    · exact Or.inr h
  | case3 pre k rest ih =>
    intro hne hx
    rw [truthyLeafParams] at hx
    rcases ih (fun h => fun hm => hne h (by simp [hm])) hx with ⟨h1, h2⟩ | h
    · exact Or.inl ⟨h1, by simp [h2]⟩
    · exact Or.inr h
  | case4 pre k fields rest ih1 ih2 =>
    intro hne hx
    rw [truthyLeafParams, List.map_append, List.mem_append] at hx
    rcases hx with hx | hx
    · by_cases hpre : pre = ""
      · have hk : k ≠ "" := by
          intro hc
          exact hne hpre (by simp [hc])
        have hkey : mkKey pre k ≠ "" := by
          rw [mkKey, if_pos hpre]
          exact hk
        rcases ih1 (fun h => absurd h hkey) hx with ⟨h1, _⟩ | h
        · exact absurd h1 hkey
        · exact Or.inr h
      · have hkey : mkKey pre k ≠ "" := mkKey_ne_empty k hpre
        rcases ih1 (fun h => absurd h hkey) hx with ⟨h1, _⟩ | h
        · exact absurd h1 hkey
        · exact Or.inr h
    · rcases ih2 (fun h => fun hm => hne h (by simp [hm])) hx with ⟨h1, h2⟩ | h
      · exact Or.inl ⟨h1, by simp [h2]⟩
      · exact Or.inr h
  | case5 pre k v rest h1 h2 h3 ih =>
    intro hne hx
    rw [truthyLeafParams.eq_5 _ _ _ _ h1 h2 h3, List.map_append,
      List.mem_append] at hx
    rcases hx with hx | hx
    · by_cases hc : (truthy v || (k == "page" && isOne v)) = true
      · rw [if_pos hc] at hx
        simp only [List.map_cons, List.map_nil, List.mem_singleton] at hx
        by_cases hpre : pre = ""
        · subst hx
          exact Or.inl ⟨hpre, by simp [mkKey, hpre]⟩
        · exact Or.inr (hx ▸ mkKey_bracket_mem k hpre)
      · rw [if_neg hc] at hx
        simp at hx
    · rcases ih (fun h => fun hm => hne h (by simp [hm])) hx with ⟨ha, hb⟩ | h
      · exact Or.inl ⟨ha, by simp [hb]⟩
      · exact Or.inr h

/-- A key that no truthy leaf of the subtree produces is untouched by
`appendQueryParams`. -/
theorem paramsLookup_appendQueryParams_not_mem {s : String} (pre : String)
    (fs : List (String × JVal)) (acc : Params)
    (hk : s ∉ (truthyLeafParams pre fs).map Prod.fst) :
    paramsLookup (DPWF.appendQueryParams pre fs acc) s = paramsLookup acc s := by
  revert hk
  induction pre, fs, acc using DPWF.appendQueryParams.induct with
  | case1 pre acc => exact fun _ => by rw [DPWF.appendQueryParams]
  | case2 pre k rest acc ih =>
    intro hk
    rw [truthyLeafParams] at hk
    rw [DPWF.appendQueryParams]
    exact ih hk
  | case3 pre k rest acc ih =>
    intro hk
    rw [truthyLeafParams] at hk
    rw [DPWF.appendQueryParams]
    exact ih hk
  | case4 pre k fields rest acc ih1 ih2 =>
    intro hk
    rw [truthyLeafParams, List.map_append, List.mem_append] at hk
    push_neg at hk
    rw [DPWF.appendQueryParams, ih2 hk.2, ih1 hk.1]
  | case5 pre k v rest acc h1 h2 h3 ih =>
    intro hk
    rw [truthyLeafParams.eq_5 _ _ _ _ h1 h2 h3, List.map_append,
      List.mem_append] at hk
    push_neg at hk
    rw [DPWF.appendQueryParams.eq_5 _ _ _ _ _ h1 h2 h3]
    by_cases hc : (truthy v || (k == "page" && isOne v)) = true
    · have hk1 : s ≠ mkKey pre k := by
        have hx := hk.1
        rw [if_pos hc] at hx
        simpa using hx
      have ihx := ih hk.2
      rw [dif_pos hc] at ihx
      rw [if_pos hc, ihx, paramsLookup_setParam_ne acc _ hk1]
    · have ihx := ih hk.2
      rw [dif_neg hc] at ihx
      rw [if_neg hc, ihx]

/-- A value `appendQueryParams` treats as flat and non-nullish. -/
def isFlatVal : JVal → Bool
  | .vNull => false
  | .vUndef => false
  | .vObj _ => false
  | _ => true

/-- When the filter object holds a flat value under `page` that passes the
emission test, `appendQueryParams` at the top level writes exactly that value
under the `page` parameter (JS objects cannot repeat keys, hence the `Nodup`
hypothesis; the empty string is excluded as a key because `mkKey` would fold
an empty-key object transparently into the top level). -/
theorem paramsLookup_appendQueryParams_page {fs : List (String × JVal)}
    {v : JVal} (acc : Params) (hnd : (fs.map Prod.fst).Nodup)
    (hne : "" ∉ fs.map Prod.fst) (hpage : lookupVal fs "page" = some v)
    (hflat : isFlatVal v = true) (hcond : (truthy v || isOne v) = true) :
    paramsLookup (DPWF.appendQueryParams "" fs acc) "page" =
      some (jvalToString v) := by
  revert hnd hne hpage
  induction fs generalizing acc with
  | nil =>
    intro _ _ hpage
    simp [lookupVal] at hpage
  | cons p rest ih =>
    intro hnd hne hpage
    obtain ⟨k, w⟩ := p
    simp only [List.map_cons, List.nodup_cons] at hnd
    simp only [List.map_cons, List.mem_cons] at hne
    push_neg at hne
    by_cases hk : k = "page"
    · subst hk
      have hw : w = v := by
        rw [lookupVal, if_pos rfl] at hpage
        exact Option.some.inj hpage
      subst hw
      have h1 : w = JVal.vNull → False := by
        intro h; rw [h] at hflat; simp [isFlatVal] at hflat
      have h2 : w = JVal.vUndef → False := by
        intro h; rw [h] at hflat; simp [isFlatVal] at hflat
      have h3 : ∀ fields, w = JVal.vObj fields → False := by
        intro fields h; rw [h] at hflat; simp [isFlatVal] at hflat
      rw [DPWF.appendQueryParams.eq_5 _ _ _ _ _ h1 h2 h3]
      have hc : (truthy w || ("page" == "page" && isOne w)) = true := by
        simpa using hcond
      rw [if_pos hc]
      have hkey : mkKey "" "page" = "page" := by rw [mkKey, if_pos rfl]
      rw [hkey]
      have hnotl : "page" ∉ (truthyLeafParams "" rest).map Prod.fst := by
        intro hmem
        rcases mem_keys_truthyLeafParams "" rest (fun _ => hne.2) hmem with
          ⟨_, hm⟩ | hbr
        · exact hnd.1 hm
        · simp at hbr
      rw [paramsLookup_appendQueryParams_not_mem "" rest _ hnotl,
        paramsLookup_setParam_self]
    · have hpage2 : lookupVal rest "page" = some v := by
        rw [lookupVal, if_neg hk] at hpage
        exact hpage
      cases w with
      | vNull =>
        rw [DPWF.appendQueryParams]
        exact ih _ hnd.2 hne.2 hpage2
      | vUndef =>
        rw [DPWF.appendQueryParams]
        exact ih _ hnd.2 hne.2 hpage2
      | vObj fields =>
        rw [DPWF.appendQueryParams]
        exact ih _ hnd.2 hne.2 hpage2
      | vStr s2 =>
        rw [DPWF.appendQueryParams.eq_5 _ _ _ _ _ (by simp) (by simp) (by simp)]
        exact ih _ hnd.2 hne.2 hpage2
      | vNum n =>
        rw [DPWF.appendQueryParams.eq_5 _ _ _ _ _ (by simp) (by simp) (by simp)]
        exact ih _ hnd.2 hne.2 hpage2
      | vBool b =>
        rw [DPWF.appendQueryParams.eq_5 _ _ _ _ _ (by simp) (by simp) (by simp)]
        exact ih _ hnd.2 hne.2 hpage2
      | vArr elems =>
        rw [DPWF.appendQueryParams.eq_5 _ _ _ _ _ (by simp) (by simp) (by simp)]
        exact ih _ hnd.2 hne.2 hpage2

/-- Keys the filter object does not hold are untouched by the `QueryMaster`
loop. -/
theorem paramsLookup_appendFlatParams_not_mem {s : String}
    (fs : List (String × JVal)) (acc : Params) (h : s ∉ fs.map Prod.fst) :
    paramsLookup (QM.appendFlatParams fs acc) s = paramsLookup acc s := by
  revert h
  induction fs generalizing acc with
  | nil => intro _; rw [QM.appendFlatParams]
  | cons p rest ih =>
    intro h
    obtain ⟨k, v⟩ := p
    simp only [List.map_cons, List.mem_cons] at h
    push_neg at h
    rw [QM.appendFlatParams, ih _ h.2]
    by_cases hc : (truthy v && (!(k == "page") || !(isOne v))) = true
    · rw [if_pos hc, paramsLookup_setParam_ne acc _ h.1]
    · rw [if_neg hc]

/-- When the filter object holds a value whose emission test passes, the
`QueryMaster` loop writes exactly that value under the key. -/
theorem paramsLookup_appendFlatParams_some {fs : List (String × JVal)}
    {k : String} {v : JVal} (acc : Params) (hnd : (fs.map Prod.fst).Nodup)
    (hlk : lookupVal fs k = some v)
    (hc : (truthy v && (!(k == "page") || !(isOne v))) = true) :
    paramsLookup (QM.appendFlatParams fs acc) k = some (jvalToString v) := by
  revert hnd hlk
  induction fs generalizing acc with
  | nil =>
    intro _ hlk
    simp [lookupVal] at hlk
  | cons p rest ih =>
    intro hnd hlk
    obtain ⟨k1, w⟩ := p
    simp only [List.map_cons, List.nodup_cons] at hnd
    by_cases hk : k1 = k
    · subst hk
      have hw : w = v := by
        rw [lookupVal, if_pos rfl] at hlk
        exact Option.some.inj hlk
      subst hw
      rw [QM.appendFlatParams, if_pos hc,
        paramsLookup_appendFlatParams_not_mem rest _ hnd.1,
        paramsLookup_setParam_self]
    · have hlk2 : lookupVal rest k = some v := by
        rw [lookupVal, if_neg hk] at hlk
        exact hlk
      rw [QM.appendFlatParams]
      exact ih _ hnd.2 hlk2

/-- When the filter object holds a value whose emission test fails, the
`QueryMaster` loop leaves the key out of the query string. -/
theorem paramsLookup_appendFlatParams_none {fs : List (String × JVal)}
    {k : String} {v : JVal} (acc : Params) (hnd : (fs.map Prod.fst).Nodup)
    (hlk : lookupVal fs k = some v)
    (hc : (truthy v && (!(k == "page") || !(isOne v))) = false)
    (hacc : paramsLookup acc k = none) :
    paramsLookup (QM.appendFlatParams fs acc) k = none := by
  revert hnd hlk hacc
  induction fs generalizing acc with
  | nil =>
    intro _ hlk _
    simp [lookupVal] at hlk
  | cons p rest ih =>
    intro hnd hlk hacc
    obtain ⟨k1, w⟩ := p
    simp only [List.map_cons, List.nodup_cons] at hnd
    by_cases hk : k1 = k
    · subst hk
      have hw : w = v := by
        rw [lookupVal, if_pos rfl] at hlk
        exact Option.some.inj hlk
      subst hw
      rw [QM.appendFlatParams, if_neg (by rw [hc]; simp),
        paramsLookup_appendFlatParams_not_mem rest _ hnd.1]
      exact hacc
    · have hlk2 : lookupVal rest k = some v := by
        rw [lookupVal, if_neg hk] at hlk
        exact hlk
      rw [QM.appendFlatParams]
      apply ih _ hnd.2 hlk2
      by_cases hcw : (truthy w && (!(k1 == "page") || !(isOne w))) = true
      · rw [if_pos hcw, paramsLookup_setParam_ne acc _ (Ne.symm hk)]
        exact hacc
      · rw [if_neg hcw]
        exact hacc

/-- Under the no-key-collision invariant, `set` only ever appends, so
`appendQueryParams` extends the accumulated parameters with exactly its
truthy-leaf parameters in depth-first order. -/
theorem appendQueryParams_eq_append {pre : String} {fs : List (String × JVal)}
    {acc : Params} (hnd : ((truthyLeafParams pre fs).map Prod.fst).Nodup)
    (hdisj : ∀ x ∈ (truthyLeafParams pre fs).map Prod.fst,
      x ∉ acc.map Prod.fst) :
    DPWF.appendQueryParams pre fs acc = acc ++ truthyLeafParams pre fs := by
  revert hnd hdisj
  induction pre, fs, acc using DPWF.appendQueryParams.induct with
  | case1 pre acc =>
    intro _ _
    rw [DPWF.appendQueryParams, truthyLeafParams]
    simp
  | case2 pre k rest acc ih =>
    intro hnd hdisj
    rw [truthyLeafParams] at hnd hdisj
    rw [DPWF.appendQueryParams, truthyLeafParams]
    exact ih hnd hdisj
  | case3 pre k rest acc ih =>
    intro hnd hdisj
    rw [truthyLeafParams] at hnd hdisj
    rw [DPWF.appendQueryParams, truthyLeafParams]
    exact ih hnd hdisj
  | case4 pre k fields rest acc ih1 ih2 =>
    intro hnd hdisj
    rw [truthyLeafParams] at hnd hdisj
    rw [List.map_append, List.nodup_append] at hnd
    have hdisj1 : ∀ x ∈ (truthyLeafParams (mkKey pre k) fields).map Prod.fst,
        x ∉ acc.map Prod.fst := by
      intro x hx
      exact hdisj x (by rw [List.map_append]; exact List.mem_append_left _ hx)
    have hin := ih1 hnd.1 hdisj1
    have hdisj2 : ∀ x ∈ (truthyLeafParams pre rest).map Prod.fst,
        x ∉ (DPWF.appendQueryParams (mkKey pre k) fields acc).map Prod.fst := by
      intro x hx
      rw [hin, List.map_append, List.mem_append]
      push_neg
      refine ⟨hdisj x ?_, fun hmem => hnd.2.2 hmem hx⟩
      rw [List.map_append]
      exact List.mem_append_right _ hx
    have h2 := ih2 hnd.2.1 hdisj2
    rw [DPWF.appendQueryParams, truthyLeafParams, h2, hin, List.append_assoc]
  | case5 pre k v rest acc h1 h2 h3 ih =>
    intro hnd hdisj
    rw [truthyLeafParams.eq_5 _ _ _ _ h1 h2 h3] at hnd hdisj
    rw [DPWF.appendQueryParams.eq_5 _ _ _ _ _ h1 h2 h3,
      truthyLeafParams.eq_5 _ _ _ _ h1 h2 h3]
    by_cases hc : (truthy v || (k == "page" && isOne v)) = true
    · rw [dif_pos hc] at ih
      rw [if_pos hc] at hnd hdisj
      rw [if_pos hc, if_pos hc]
      simp only [List.map_append, List.map_cons, List.map_nil] at hnd hdisj
      rw [List.nodup_append] at hnd
      have hset : setParam acc (mkKey pre k) (jvalToString v) =
          acc ++ [(mkKey pre k, jvalToString v)] :=
        setParam_of_not_mem _ (hdisj _ (by simp))
      have hdisj2 : ∀ x ∈ (truthyLeafParams pre rest).map Prod.fst,
          x ∉ (setParam acc (mkKey pre k) (jvalToString v)).map Prod.fst := by
        intro x hx
        rw [hset, List.map_append, List.mem_append]
        push_neg
        refine ⟨hdisj x (by simp [hx]), ?_⟩
        intro hmem
        simp only [List.map_cons, List.map_nil, List.mem_singleton] at hmem
        exact hnd.2.2 (by simp) (hmem ▸ hx)
      have ihx := ih hnd.2.1 hdisj2
      rw [ihx, hset, List.append_assoc]
    · rw [dif_neg hc] at ih
      rw [if_neg hc] at hnd hdisj
      rw [if_neg hc, if_neg hc]
      simp only [List.map_nil, List.nil_append] at hnd hdisj
      rw [List.nil_append]
      exact ih hnd hdisj

theorem mkKeyPath_eq_foldl (ks : List String) (pre : String) (h : pre ≠ "") :
    mkKeyPath pre ks =
      ks.foldl (fun a s2 => a ++ "[" ++ s2 ++ "]") pre := by
  induction ks generalizing pre with
  | nil => rfl
  | cons k rest ih =>
    rw [mkKeyPath, List.foldl_cons, ih (mkKey pre k) (mkKey_ne_empty k h),
      mkKey, if_neg h]

theorem mkKeyPath_eq_bracketKey (k : String) (ks : List String) (h : k ≠ "") :
    mkKeyPath "" (k :: ks) = bracketKey (k :: ks) := by
  rw [mkKeyPath, bracketKey]
  rw [show mkKey "" k = k from by rw [mkKey, if_pos rfl]]
  cases ks with
  | nil => rfl
  | cons k2 rest => exact mkKeyPath_eq_foldl _ _ h

/-- Every leaf path starts with a top-level key of the filter object. -/
theorem leavesOf_head_mem {fs : List (String × JVal)} {p : List String}
    {v : JVal} (h : (p, v) ∈ leavesOf fs) :
    ∃ k ks, p = k :: ks ∧ k ∈ fs.map Prod.fst := by
  revert h
  induction fs using leavesOf.induct with
  | case1 =>
    intro h
    simp [leavesOf] at h
  | case2 k fields rest ih1 ih2 =>
    intro h
    rw [leavesOf, List.mem_append] at h
    rcases h with h | h
    · rcases List.mem_map.mp h with ⟨q, _, hq⟩
      refine ⟨k, q.1, ?_, by simp⟩
      have hfst := congrArg Prod.fst hq
      simpa using hfst.symm
    · rcases ih2 h with ⟨k2, ks2, hp, hm⟩
      exact ⟨k2, ks2, hp, by simp [hm]⟩
  | case3 k v2 rest h3 ih =>
    intro h
    rw [leavesOf.eq_3 _ _ _ h3, List.mem_cons] at h
    rcases h with h | h
    · refine ⟨k, [], ?_, by simp⟩
      have hfst := congrArg Prod.fst h
      simpa using hfst
    · rcases ih h with ⟨k2, ks2, hp, hm⟩
      exact ⟨k2, ks2, hp, by simp [hm]⟩

/-- `truthyLeafParams` is exactly the truthy leaves of the subtree, keyed by
the accumulated bracketed path. -/
theorem truthyLeafParams_eq_leaves (pre : String)
    (fs : List (String × JVal)) :
    truthyLeafParams pre fs =
      ((leavesOf fs).filter (fun q => truthy q.2)).map
        (fun q => (mkKeyPath pre q.1, jvalToString q.2)) := by
  induction pre, fs using truthyLeafParams.induct with
  | case1 pre => rw [truthyLeafParams, leavesOf]; rfl
  | case2 pre k rest ih =>
    rw [truthyLeafParams, leavesOf.eq_3 _ _ _ (by simp), List.filter_cons]
    simp only [truthy, Bool.false_eq_true, if_false]
    exact ih
  | case3 pre k rest ih =>
    rw [truthyLeafParams, leavesOf.eq_3 _ _ _ (by simp), List.filter_cons]
    simp only [truthy, Bool.false_eq_true, if_false]
    exact ih
  | case4 pre k fields rest ih1 ih2 =>
    rw [truthyLeafParams, leavesOf, List.filter_append, List.map_append,
      ih1, ih2, List.filter_map, List.map_map]
    congr 1
  | case5 pre k v rest h1 h2 h3 ih =>
    rw [truthyLeafParams.eq_5 _ _ _ _ h1 h2 h3, leavesOf.eq_3 _ _ _ h3,
      List.filter_cons, emit_cond_eq_truthy]
    by_cases hv : truthy v = true
    · rw [if_pos hv, if_pos (by simpa using hv), List.map_cons, ih]
      rfl
    · rw [if_neg hv, if_neg (by simpa using hv), ih]
      rfl

theorem lookupVal_eq_none_iff {fs : List (String × JVal)} {k : String} :
    lookupVal fs k = none ↔ k ∉ fs.map Prod.fst := by
  induction fs with
  | nil => simp [lookupVal]
  | cons p rest ih =>
    by_cases h : p.1 = k
    · simp [lookupVal, h]
    · simp [lookupVal, h, ih, Ne.symm h]

theorem lookupVal_append (a b : List (String × JVal)) (k : String) :
    lookupVal (a ++ b) k =
      match lookupVal a k with
      | some v => some v
      | none => lookupVal b k := by
  induction a with
  | nil => simp [lookupVal]
  | cons p rest ih =>
    by_cases h : p.1 = k
    · simp [lookupVal, h]
    · simp [lookupVal, h, ih]

theorem lookupVal_mapSubst (a b : List (String × JVal)) (k : String) :
    lookupVal
      (a.map (fun p => match lookupVal b p.1 with | some v => (p.1, v) | none => p)) k =
      (lookupVal a k).map (fun w => (lookupVal b k).getD w) := by
  induction a with
  | nil => simp [lookupVal]
  | cons p rest ih =>
    by_cases h : p.1 = k
    · subst h
      cases hb : lookupVal b p.1 <;> simp [lookupVal, hb]
    · cases hb : lookupVal b p.1 <;> simp [lookupVal, hb, h, ih]

theorem lookupVal_filterKey (b : List (String × JVal)) (g : String → Bool)
    (k : String) :
    lookupVal (b.filter (fun p => g p.1)) k =
      if g k then lookupVal b k else none := by
  induction b with
  | nil => simp [lookupVal]
  | cons p rest ih =>
    by_cases hg : g p.1
    · by_cases h : p.1 = k
      · subst h
        simp [List.filter_cons, hg, lookupVal]
      · simp [List.filter_cons, hg, lookupVal, h, ih]
    · rw [List.filter_cons, if_neg (by simp [hg]), ih]
      by_cases hgk : g k
      · have hpk : p.1 ≠ k := fun hc => hg (hc ▸ hgk)
        simp [hgk, lookupVal, hpk]
      · simp [hgk]

/-- Master description of property lookup after an object spread
`{ ...a, ...b }`: `b` wins on shared keys, `a` answers for its other keys,
and `b` answers for keys only it has. -/
theorem lookupVal_spreadMerge (a b : List (String × JVal)) (k : String) :
    lookupVal (spreadMerge a b) k =
      match lookupVal a k, lookupVal b k with
      | some _, some v => some v
      | some w, none => some w
      | none, o => o := by
  rw [spreadMerge, lookupVal_append, lookupVal_mapSubst,
    lookupVal_filterKey b (fun k2 => (lookupVal a k2).isNone) k]
  cases ha : lookupVal a k <;> cases hb : lookupVal b k <;> simp [ha, hb]

theorem lookupVal_spreadMerge_of_mem {b : List (String × JVal)} {k : String}
    {v : JVal} (a : List (String × JVal)) (h : lookupVal b k = some v) :
    lookupVal (spreadMerge a b) k = some v := by
  rw [lookupVal_spreadMerge, h]
  cases lookupVal a k <;> simp

theorem lookupVal_spreadMerge_of_not_mem {b : List (String × JVal)}
    {k : String} (a : List (String × JVal)) (h : lookupVal b k = none) :
    lookupVal (spreadMerge a b) k = lookupVal a k := by
  rw [lookupVal_spreadMerge, h]
  cases lookupVal a k <;> simp

theorem keys_spreadMerge (a b : List (String × JVal)) :
    (spreadMerge a b).map Prod.fst =
      a.map Prod.fst ++
        (b.filter (fun p => (lookupVal a p.1).isNone)).map Prod.fst := by
  rw [spreadMerge, List.map_append, List.map_map]
  congr 1
  apply List.map_congr_left
  intro p _
  simp only [Function.comp_apply]
  cases lookupVal b p.1 <;> simp

theorem keys_spreadMerge_nodup {a b : List (String × JVal)}
    (ha : (a.map Prod.fst).Nodup) (hb : (b.map Prod.fst).Nodup) :
    ((spreadMerge a b).map Prod.fst).Nodup := by
  rw [keys_spreadMerge, List.nodup_append]
  refine ⟨ha, List.Nodup.sublist ((List.filter_sublist b).map Prod.fst) hb, ?_⟩
  intro k hk hk2
  rcases List.mem_map.mp hk2 with ⟨p, hp, hpk⟩
  have := List.of_mem_filter hp
  rw [hpk] at this
  rw [Option.isNone_iff_eq_none, lookupVal_eq_none_iff] at this
  exact this hk

theorem mem_keys_spreadMerge {a b : List (String × JVal)} {k : String}
    (h : k ∈ (spreadMerge a b).map Prod.fst) :
    k ∈ a.map Prod.fst ∨ k ∈ b.map Prod.fst := by
  rw [keys_spreadMerge, List.mem_append] at h
  rcases h with h | h
  · exact Or.inl h
  · rcases List.mem_map.mp h with ⟨p, hp, hpk⟩
    exact Or.inr (hpk ▸ List.mem_map_of_mem Prod.fst (List.mem_of_mem_filter hp))

theorem keys_truthyLeafParams (fs : List (String × JVal))
    (hne : "" ∉ fs.map Prod.fst) :
    (truthyLeafParams "" fs).map Prod.fst =
      ((leavesOf fs).filter (fun q => truthy q.2)).map
        (fun q => bracketKey q.1) := by
  rw [truthyLeafParams_eq_leaves, List.map_map]
  apply List.map_congr_left
  intro q hq
  rcases leavesOf_head_mem (List.mem_of_mem_filter hq) with ⟨k, ks, hp, hm⟩
  have hk : k ≠ "" := fun hc => hne (hc ▸ hm)
  simp only [Function.comp_apply]
  rw [hp, mkKeyPath_eq_bracketKey k ks hk]

/-- The pagination-region events one `updateUI` call emits, as a function of
the pre-existing region and the response's `pagination` field. -/
def pagEvents (region pag : Option String) : List Event :=
  if optStrTruthy pag then
    match region with
    | some _ => [Event.paginationReplaced (pag.getD "")]
    | none => [Event.paginationInserted (pag.getD "")]
  else
    match region with
    | some _ => [Event.paginationRemoved]
    | none => []

/-- Full description of `QueryMaster.updateUI` as a state transformer. -/
theorem updateUI_spec_qm (s : PagerState) (r : ApiResponse) :
    QM.updateUI s r =
      { s with
        wrapperHTML := r.rows
        paginationSection := if optStrTruthy r.pagination then r.pagination else none
        events := s.events ++ pagEvents s.paginationSection r.pagination } := by
  rw [QM.updateUI]
  by_cases ht : optStrTruthy r.pagination
  · cases hps : s.paginationSection <;> simp [ht, hps, pagEvents]
  · cases hps : s.paginationSection <;> simp [ht, hps, pagEvents]

/-- Full description of `DynamicPaginationWithFilters.updateUI` as a state
transformer. -/
theorem updateUI_spec_dpwf (s : PagerState) (r : ApiResponse) :
    DPWF.updateUI s r =
      { s with
        wrapperHTML := r.rows
        paginationSection := if optStrTruthy r.pagination then r.pagination else none
        events := s.events ++ pagEvents s.paginationSection r.pagination ++
          (if optJValTruthy r.data && s.hasDataCallback then
            [Event.callbackInvoked (r.data.getD JVal.vNull)]
          else []) } := by
  rw [DPWF.updateUI]
  by_cases hd : (optJValTruthy r.data && s.hasDataCallback) = true
  · by_cases ht : optStrTruthy r.pagination
    · cases hps : s.paginationSection <;> simp [ht, hps, hd, pagEvents]
    · cases hps : s.paginationSection <;> simp [ht, hps, hd, pagEvents]
  · by_cases ht : optStrTruthy r.pagination
    · cases hps : s.paginationSection <;> simp [ht, hps, hd, pagEvents]
    · cases hps : s.paginationSection <;> simp [ht, hps, hd, pagEvents]

theorem loadData_requestFilters_dpwf (s : PagerState)
    (fil : List (String × JVal)) (o : FetchOutcome) :
    (DPWF.loadData s fil o).requestFilters =
      spreadMerge s.requestFilters fil := by
  cases o <;>
    simp [DPWF.loadData, DPWF.fetchData, DPWF.showLoading, DPWF.hideLoading,
      DPWF.handleError, DPWF.updateBrowserHistory, DPWF.smoothScrollToContainer,
      updateUI_spec_dpwf]

theorem loadData_requestFilters_qm (s : PagerState)
    (fil : List (String × JVal)) (o : FetchOutcome) :
    (QM.loadData s fil o).requestFilters =
      spreadMerge s.requestFilters fil := by
  cases o <;>
    simp [QM.loadData, QM.fetchData, QM.showLoading, QM.hideLoading,
      QM.handleError, QM.updateBrowserHistory, QM.smoothScrollToContainer,
      updateUI_spec_qm]

theorem loadData_fetchRequest_mem_qm (s : PagerState)
    (fil : List (String × JVal)) (o : FetchOutcome) :
    Event.fetchRequest (QM.buildUrlParams (spreadMerge s.requestFilters fil)) ∈
      (QM.loadData s fil o).events := by
  cases o <;>
    simp [QM.loadData, QM.fetchData, QM.showLoading, QM.hideLoading,
      QM.handleError, QM.updateBrowserHistory, QM.smoothScrollToContainer,
      updateUI_spec_qm]

/-- C1: the two variants implement opposite `page = 1` serialization
policies.  For a filter state whose `page` value is exactly the number `1`
(JS objects cannot repeat keys, hence the `Nodup` hypothesis; the empty
string is excluded as a key because `mkKey` folds an empty-prefix key
transparently into the top level), `QueryMaster.buildUrl` omits the `page`
parameter — `value !== 1` fails — while
`DynamicPaginationWithFilters.buildUrl` includes `page=1`, its skip-falsy
test having the explicit escape for the reserved key `page` with value
exactly `1`. -/
theorem page_one_serialization_policies (fs : List (String × JVal))
    (hnd : (fs.map Prod.fst).Nodup) (hne : "" ∉ fs.map Prod.fst)
    (hpage : lookupVal fs "page" = some (JVal.vNum 1)) :
    paramsLookup (QM.buildUrlParams fs) "page" = none ∧
    paramsLookup (DPWF.buildUrlParams fs) "page" = some "1" := by
  constructor
  · rw [QM.buildUrlParams]
    exact paramsLookup_appendFlatParams_none [] hnd hpage (by decide) rfl
  · rw [DPWF.buildUrlParams]
    have h := paramsLookup_appendQueryParams_page [] hnd hne hpage
      (by decide) (by decide)
    rw [h, show jvalToString (JVal.vNum 1) = "1" from by rw [jvalToString]; rfl]

/-- Witness for C1 at the filter state
`{ page: 1, searchQuery: "lean" }`. -/
theorem page_one_serialization_policies_witness :
    lookupVal [("page", JVal.vNum 1), ("searchQuery", JVal.vStr "lean")]
      "page" = some (JVal.vNum 1) ∧
    paramsLookup (QM.buildUrlParams
      [("page", JVal.vNum 1), ("searchQuery", JVal.vStr "lean")]) "page" =
      none ∧
    paramsLookup (DPWF.buildUrlParams
      [("page", JVal.vNum 1), ("searchQuery", JVal.vStr "lean")]) "page" =
      some "1" :=
  ⟨rfl,
    (page_one_serialization_policies
      [("page", JVal.vNum 1), ("searchQuery", JVal.vStr "lean")]
      (by decide) (by decide) rfl).1,
    (page_one_serialization_policies
      [("page", JVal.vNum 1), ("searchQuery", JVal.vStr "lean")]
      (by decide) (by decide) rfl).2⟩

/-- C6: every error thrown during the fetch cycle (network failure, non-2xx
status, JSON parse failure) is caught inside `loadData`, reported through
`console.error` and an `alert`, and nothing else happens in that cycle; the
loading class is removed from the wrapper at the end of both the success and
the failure path.  `loadData` is a total function of the fetch outcome, so
no error propagates to its caller. -/
theorem load_error_handling (s : PagerState) (fil : List (String × JVal))
    (o : FetchOutcome) :
    (DPWF.loadData s fil o).wrapperLoading = false ∧
    (QM.loadData s fil o).wrapperLoading = false ∧
    (isErrorOutcome o = true →
      (DPWF.loadData s fil o).events = s.events ++
        [Event.showLoadingClass,
          Event.fetchRequest
            (DPWF.buildUrlParams (spreadMerge s.requestFilters fil)),
          Event.consoleError (fetchErrorMessage o),
          Event.alertShown "Error loading data. Please try again.",
          Event.hideLoadingClass] ∧
      (QM.loadData s fil o).events = s.events ++
        [Event.showLoadingClass,
          Event.fetchRequest
            (QM.buildUrlParams (spreadMerge s.requestFilters fil)),
          Event.consoleError (fetchErrorMessage o),
          Event.alertShown "Error loading data. Please try again.",
          Event.hideLoadingClass]) := by
  refine ⟨by cases o <;> rfl, by cases o <;> rfl, ?_⟩
  intro h
  cases o with
  | success r => simp [isErrorOutcome] at h
  | networkError m =>
    constructor <;>
      simp [DPWF.loadData, DPWF.fetchData, DPWF.showLoading, DPWF.hideLoading,
        DPWF.handleError, QM.loadData, QM.fetchData, QM.showLoading,
        QM.hideLoading, QM.handleError, fetchErrorMessage]
  | httpError st =>
    constructor <;>
      simp [DPWF.loadData, DPWF.fetchData, DPWF.showLoading, DPWF.hideLoading,
        DPWF.handleError, QM.loadData, QM.fetchData, QM.showLoading,
        QM.hideLoading, QM.handleError, fetchErrorMessage]
  | parseError m =>
    constructor <;>
      simp [DPWF.loadData, DPWF.fetchData, DPWF.showLoading, DPWF.hideLoading,
        DPWF.handleError, QM.loadData, QM.fetchData, QM.showLoading,
        QM.hideLoading, QM.handleError, fetchErrorMessage]

/-- Witness for C6 at a 500 status on a fresh
`DynamicPaginationWithFilters` instance. -/
theorem load_error_handling_witness :
    isErrorOutcome (FetchOutcome.httpError 500) = true ∧
    (DPWF.loadData (DPWF.initState false) [] (FetchOutcome.httpError 500)
      ).wrapperLoading = false ∧
    (DPWF.loadData (DPWF.initState false) [] (FetchOutcome.httpError 500)
      ).events = (DPWF.initState false).events ++
      [Event.showLoadingClass,
        Event.fetchRequest (DPWF.buildUrlParams
          (spreadMerge (DPWF.initState false).requestFilters [])),
        Event.consoleError (fetchErrorMessage (FetchOutcome.httpError 500)),
        Event.alertShown "Error loading data. Please try again.",
        Event.hideLoadingClass] :=
  ⟨rfl,
    (load_error_handling (DPWF.initState false) [] (FetchOutcome.httpError 500)).1,
    ((load_error_handling (DPWF.initState false) [] (FetchOutcome.httpError 500)).2.2
      rfl).1⟩

/-- C7: on a non-success status (404), `fetchData` throws before `updateUI`
and `updateBrowserHistory` run, so `loadData` sets and then clears the
loading class and performs no other DOM mutation: the wrapper content, the
pagination region and the history stack are all left unchanged. -/
theorem http_error_frame_effect (s : PagerState)
    (fil : List (String × JVal)) :
    (DPWF.loadData s fil (FetchOutcome.httpError 404)).wrapperHTML =
      s.wrapperHTML ∧
    (DPWF.loadData s fil (FetchOutcome.httpError 404)).paginationSection =
      s.paginationSection ∧
    (DPWF.loadData s fil (FetchOutcome.httpError 404)).historyStack =
      s.historyStack ∧
    (DPWF.loadData s fil (FetchOutcome.httpError 404)).wrapperLoading =
      false ∧
    (DPWF.loadData s fil (FetchOutcome.httpError 404)).events = s.events ++
      [Event.showLoadingClass,
        Event.fetchRequest
          (DPWF.buildUrlParams (spreadMerge s.requestFilters fil)),
        Event.consoleError "HTTP error! status: 404",
        Event.alertShown "Error loading data. Please try again.",
        Event.hideLoadingClass] := by
  refine ⟨rfl, rfl, rfl, rfl, ?_⟩
  simp [DPWF.loadData, DPWF.fetchData, DPWF.showLoading, DPWF.hideLoading,
    DPWF.handleError]
  rfl

/-- C10: in both variants `setFilters` is definitionally the delegation
`this.loadData(filters)`, so for every state, filter delta and fetch outcome
the two methods produce identical states (filter update, request URL, DOM
and history effects included). -/
theorem setFilters_delegates_to_loadData (s : PagerState)
    (fil : List (String × JVal)) (o : FetchOutcome) :
    DPWF.setFilters s fil o = DPWF.loadData s fil o ∧
    QM.setFilters s fil o = QM.loadData s fil o :=
  ⟨rfl, rfl⟩

/-- C4: filter state starts with `page` defaulting to `1` at construction,
and `loadData(delta)` updates it by the one-level-deep spread
`{ ...requestFilters, ...delta }`: keys of the delta override (a nested
object in the delta replaces the previous value wholesale, since the spread
copies the delta's value as a whole), keys missing from the delta keep their
previous value, and after `loadData({ page: 3 })` serialization reflects
`page=3`. -/
theorem filter_state_default_and_shallow_merge (s : PagerState)
    (o : FetchOutcome) (d : List (String × JVal)) (k : String) (v : JVal)
    (hnd : (s.requestFilters.map Prod.fst).Nodup)
    (hne : "" ∉ s.requestFilters.map Prod.fst) :
    lookupVal (DPWF.initState true).requestFilters "page" =
      some (JVal.vNum 1) ∧
    (DPWF.loadData s d o).requestFilters = spreadMerge s.requestFilters d ∧
    (lookupVal d k = some v →
      lookupVal (DPWF.loadData s d o).requestFilters k = some v) ∧
    (lookupVal d k = none →
      lookupVal (DPWF.loadData s d o).requestFilters k =
        lookupVal s.requestFilters k) ∧
    paramsLookup (DPWF.buildUrlParams
      ((DPWF.loadData s [("page", JVal.vNum 3)] o).requestFilters)) "page" =
      some "3" := by
  refine ⟨rfl, loadData_requestFilters_dpwf s d o, ?_, ?_, ?_⟩
  · intro h
    rw [loadData_requestFilters_dpwf]
    exact lookupVal_spreadMerge_of_mem _ h
  · intro h
    rw [loadData_requestFilters_dpwf]
    exact lookupVal_spreadMerge_of_not_mem _ h
  · rw [loadData_requestFilters_dpwf]
    have hnd2 : ((spreadMerge s.requestFilters
        [("page", JVal.vNum 3)]).map Prod.fst).Nodup :=
      keys_spreadMerge_nodup hnd (by decide)
    have hne2 : "" ∉ (spreadMerge s.requestFilters
        [("page", JVal.vNum 3)]).map Prod.fst := by
      intro hmem
      rcases mem_keys_spreadMerge hmem with h | h
      · exact hne h
      · simp at h
    have hpage : lookupVal (spreadMerge s.requestFilters
        [("page", JVal.vNum 3)]) "page" = some (JVal.vNum 3) :=
      lookupVal_spreadMerge_of_mem _ rfl
    rw [DPWF.buildUrlParams]
    have h := paramsLookup_appendQueryParams_page [] hnd2 hne2 hpage
      (by decide) (by decide)
    rw [h, show jvalToString (JVal.vNum 3) = "3" from by rw [jvalToString]; rfl]

/-- Example instance for the C4 witness: a component whose filter state
holds a page and a search filter. -/
def c4ExampleState : PagerState :=
  { requestFilters := [("page", JVal.vNum 1), ("searchQuery", JVal.vStr "x")]
    hasDataCallback := false
    wrapperHTML := ""
    wrapperLoading := false
    paginationSection := none
    historyStack := []
    events := [] }

/-- Witness for C4: loading `{ page: 3 }` on the example instance. -/
theorem filter_state_default_and_shallow_merge_witness :
    lookupVal (DPWF.initState true).requestFilters "page" =
      some (JVal.vNum 1) ∧
    lookupVal (DPWF.loadData c4ExampleState [("page", JVal.vNum 3)]
      (FetchOutcome.httpError 404)).requestFilters "page" =
      some (JVal.vNum 3) ∧
    lookupVal (DPWF.loadData c4ExampleState [("page", JVal.vNum 3)]
      (FetchOutcome.httpError 404)).requestFilters "searchQuery" =
      lookupVal c4ExampleState.requestFilters "searchQuery" ∧
    paramsLookup (DPWF.buildUrlParams ((DPWF.loadData c4ExampleState
      [("page", JVal.vNum 3)] (FetchOutcome.httpError 404)).requestFilters))
      "page" = some "3" :=
  ⟨(filter_state_default_and_shallow_merge c4ExampleState
      (FetchOutcome.httpError 404) [("page", JVal.vNum 3)] "page"
      (JVal.vNum 3) (by decide) (by decide)).1,
    (filter_state_default_and_shallow_merge c4ExampleState
      (FetchOutcome.httpError 404) [("page", JVal.vNum 3)] "page"
      (JVal.vNum 3) (by decide) (by decide)).2.2.1 rfl,
    (filter_state_default_and_shallow_merge c4ExampleState
      (FetchOutcome.httpError 404) [("page", JVal.vNum 3)] "searchQuery"
      JVal.vNull (by decide) (by decide)).2.2.2.1 rfl,
    (filter_state_default_and_shallow_merge c4ExampleState
      (FetchOutcome.httpError 404) [("page", JVal.vNum 3)] "page"
      (JVal.vNum 3) (by decide) (by decide)).2.2.2.2⟩

/-- C9: `QueryMaster.buildUrl` omits `page` only when its value is the
number `1` (`value !== 1` is strict).  `handlePaginationClick` reads the
clicked link's `page` parameter as the string `"1"`, merges it into filter
state, and the resulting request URL does contain `page=1`. -/
theorem page_string_one_included (s : PagerState) (href : Params)
    (o : FetchOutcome) (hnd : (s.requestFilters.map Prod.fst).Nodup)
    (hhref : paramsLookup href "page" = some "1") :
    (QM.handlePaginationClick s (some href) o).requestFilters =
      spreadMerge s.requestFilters [("page", JVal.vStr "1")] ∧
    lookupVal ((QM.handlePaginationClick s (some href) o).requestFilters)
      "page" = some (JVal.vStr "1") ∧
    paramsLookup (QM.buildUrlParams
      ((QM.handlePaginationClick s (some href) o).requestFilters)) "page" =
      some "1" ∧
    Event.fetchRequest (QM.buildUrlParams
      (spreadMerge s.requestFilters [("page", JVal.vStr "1")])) ∈
      (QM.handlePaginationClick s (some href) o).events := by
  have hstep : QM.handlePaginationClick s (some href) o =
      QM.loadData s [("page", JVal.vStr "1")] o := by
    simp only [QM.handlePaginationClick, hhref]
  have hnd2 : ((spreadMerge s.requestFilters
      [("page", JVal.vStr "1")]).map Prod.fst).Nodup :=
    keys_spreadMerge_nodup hnd (by decide)
  have hpage : lookupVal (spreadMerge s.requestFilters
      [("page", JVal.vStr "1")]) "page" = some (JVal.vStr "1") :=
    lookupVal_spreadMerge_of_mem _ rfl
  refine ⟨?_, ?_, ?_, ?_⟩
  · rw [hstep]
    exact loadData_requestFilters_qm s _ o
  · rw [hstep, loadData_requestFilters_qm]
    exact hpage
  · rw [hstep, loadData_requestFilters_qm, QM.buildUrlParams]
    have h := paramsLookup_appendFlatParams_some [] hnd2 hpage (by decide)
    rw [h, show jvalToString (JVal.vStr "1") = "1" from by rw [jvalToString]]
  · rw [hstep]
    exact loadData_fetchRequest_mem_qm s _ o

/-- Witness for C9: a click on a page-1 pagination link on a fresh
`QueryMaster` instance. -/
theorem page_string_one_included_witness :
    paramsLookup [("page", "1"), ("contentType", "articles")] "page" =
      some "1" ∧
    lookupVal ((QM.handlePaginationClick QM.initState
      (some [("page", "1"), ("contentType", "articles")])
      (FetchOutcome.httpError 404)).requestFilters) "page" =
      some (JVal.vStr "1") ∧
    paramsLookup (QM.buildUrlParams ((QM.handlePaginationClick QM.initState
      (some [("page", "1"), ("contentType", "articles")])
      (FetchOutcome.httpError 404)).requestFilters)) "page" = some "1" :=
  ⟨rfl,
    (page_string_one_included QM.initState
      [("page", "1"), ("contentType", "articles")]
      (FetchOutcome.httpError 404) (by decide) rfl).2.1,
    (page_string_one_included QM.initState
      [("page", "1"), ("contentType", "articles")]
      (FetchOutcome.httpError 404) (by decide) rfl).2.2.1⟩

theorem pagEvents_filter_pag (a b : Option String) :
    (pagEvents a b).filter isPagEvent = pagEvents a b := by
  by_cases h : optStrTruthy b = true <;>
    cases a <;> simp [pagEvents, h, isPagEvent]

theorem pagEvents_filter_callback (a b : Option String) :
    (pagEvents a b).filter isCallbackEvent = [] := by
  by_cases h : optStrTruthy b = true <;>
    cases a <;> simp [pagEvents, h, isCallbackEvent]

/-- Counterexample to C5 as stated: the response field `pagination` is
present (the empty string) and a pagination region exists, yet `updateUI`
does not replace the region with the fragment — `if (response.pagination)`
tests truthiness, `""` is falsy, so the region is removed instead. -/
theorem pagination_empty_string_counterexample :
    ({ rows := "<p>A</p>", pagination := some "", data := none } :
        ApiResponse).pagination = some "" ∧
    (QM.updateUI
      { requestFilters := [("page", JVal.vNum 1)], hasDataCallback := false,
        wrapperHTML := "", wrapperLoading := false,
        paginationSection := some "<nav>old</nav>", historyStack := [],
        events := [] }
      { rows := "<p>A</p>", pagination := some "", data := none }
      ).paginationSection = none ∧
    (QM.updateUI
      { requestFilters := [("page", JVal.vNum 1)], hasDataCallback := false,
        wrapperHTML := "", wrapperLoading := false,
        paginationSection := some "<nav>old</nav>", historyStack := [],
        events := [] }
      { rows := "<p>A</p>", pagination := some "", data := none }
      ).events = [Event.paginationRemoved] :=
  ⟨rfl, rfl, rfl⟩

/-- C5 as amended: `updateUI` keys the pagination update on the truthiness
of the `pagination` field, not on its presence.  If `pagination` is present
and non-empty: an existing region is replaced by the new fragment, otherwise
the fragment is inserted after the wrapper.  If `pagination` is absent, null
or the empty string: an existing region is removed, and nothing happens when
none exists.  In every case the wrapper content becomes `rows` verbatim.
Both variants behave identically. -/
theorem pagination_update_cases (s : PagerState) (r : ApiResponse) :
    (DPWF.updateUI s r).wrapperHTML = r.rows ∧
    (QM.updateUI s r).wrapperHTML = r.rows ∧
    (DPWF.updateUI s r).paginationSection =
      (if optStrTruthy r.pagination then r.pagination else none) ∧
    (QM.updateUI s r).paginationSection =
      (if optStrTruthy r.pagination then r.pagination else none) ∧
    (DPWF.updateUI s r).events.filter isPagEvent =
      s.events.filter isPagEvent ++
        pagEvents s.paginationSection r.pagination ∧
    (QM.updateUI s r).events.filter isPagEvent =
      s.events.filter isPagEvent ++
        pagEvents s.paginationSection r.pagination := by
  refine ⟨by rw [updateUI_spec_dpwf], by rw [updateUI_spec_qm],
    by rw [updateUI_spec_dpwf], by rw [updateUI_spec_qm], ?_, ?_⟩
  · rw [updateUI_spec_dpwf]
    by_cases hd : (optJValTruthy r.data && s.hasDataCallback) = true <;>
      simp [hd, List.filter_append, pagEvents_filter_pag, isPagEvent]
  · rw [updateUI_spec_qm]
    simp [List.filter_append, pagEvents_filter_pag]

/-- Counterexample to C8 as stated: the response field `data` is present
(the number `0`) and a callback is configured, yet `updateUI` does not
invoke the callback — `if (response.data && ...)` tests truthiness and `0`
is falsy. -/
theorem falsy_data_callback_counterexample :
    ({ rows := "", pagination := none, data := some (JVal.vNum 0) } :
        ApiResponse).data = some (JVal.vNum 0) ∧
    (DPWF.updateUI
      { requestFilters := [("page", JVal.vNum 1)], hasDataCallback := true,
        wrapperHTML := "", wrapperLoading := false, paginationSection := none,
        historyStack := [], events := [] }
      { rows := "", pagination := none, data := some (JVal.vNum 0) }
      ).events.filter isCallbackEvent = [] :=
  ⟨rfl, rfl⟩

/-- C8 as amended: if the parsed response's `data` field is present and
truthy and a `dataCallback` function was configured, `updateUI` invokes the
callback exactly once, with exactly that `data` value; with no configured
callback, or with `data` absent or falsy, the callback is not invoked. -/
theorem data_callback_invocation (s : PagerState) (r : ApiResponse) :
    (DPWF.updateUI s r).events.filter isCallbackEvent =
      s.events.filter isCallbackEvent ++
        (if optJValTruthy r.data && s.hasDataCallback then
          [Event.callbackInvoked (r.data.getD JVal.vNull)]
        else []) := by
  rw [updateUI_spec_dpwf]
  by_cases hd : (optJValTruthy r.data && s.hasDataCallback) = true <;>
    simp [hd, List.filter_append, pagEvents_filter_callback, isCallbackEvent]

/-- C2: for filter mappings with nested (non-array object) values,
`DynamicPaginationWithFilters.buildUrl` traverses the mapping depth-first
and emits, for each truthy leaf, one query parameter keyed by the
bracket-concatenated root-to-leaf path (`key`, `key[subkey]`,
`key[subkey][subsubkey]`, to arbitrary depth): the full parameter list is
the depth-first truthy-leaf list, and each such leaf accounts for exactly
one parameter carrying its stringified value.  The `Nodup` hypothesis is the
spec's no-key-collision serialization invariant; the empty string is
excluded as a key because `mkKey` folds an empty-prefix key transparently
into the top level. -/
theorem nested_bracket_path_serialization (fs : List (String × JVal))
    (p : List String) (v : JVal) (hne : "" ∉ fs.map Prod.fst)
    (hnd : ((truthyLeafParams "" fs).map Prod.fst).Nodup)
    (hleaf : (p, v) ∈ leavesOf fs) (hv : truthy v = true) :
    DPWF.buildUrlParams fs =
      ((leavesOf fs).filter (fun q => truthy q.2)).map
        (fun q => (bracketKey q.1, jvalToString q.2)) ∧
    (DPWF.buildUrlParams fs).countP (fun q => q.1 == bracketKey p) = 1 ∧
    paramsLookup (DPWF.buildUrlParams fs) (bracketKey p) =
      some (jvalToString v) := by
  have hfe : DPWF.buildUrlParams fs = truthyLeafParams "" fs := by
    rw [DPWF.buildUrlParams]
    exact appendQueryParams_eq_append hnd (by simp)
  have hmapped : truthyLeafParams "" fs =
      ((leavesOf fs).filter (fun q => truthy q.2)).map
        (fun q => (bracketKey q.1, jvalToString q.2)) := by
    rw [truthyLeafParams_eq_leaves]
    apply List.map_congr_left
    intro q hq
    rcases leavesOf_head_mem (List.mem_of_mem_filter hq) with ⟨k, ks, hp, hm⟩
    have hk : k ≠ "" := fun hc => hne (hc ▸ hm)
    rw [hp, mkKeyPath_eq_bracketKey k ks hk]
  have hmem : (bracketKey p, jvalToString v) ∈
      ((leavesOf fs).filter (fun q => truthy q.2)).map
        (fun q => (bracketKey q.1, jvalToString q.2)) :=
    List.mem_map_of_mem _ (List.mem_filter.mpr ⟨hleaf, by simpa using hv⟩)
  have hnd2 : (((((leavesOf fs).filter (fun q => truthy q.2)).map
      (fun q => (bracketKey q.1, jvalToString q.2)))).map Prod.fst).Nodup := by
    rw [← hmapped, ← hfe, hfe]
    exact hnd
  refine ⟨hfe.trans hmapped, ?_, ?_⟩
  · rw [hfe, hmapped]
    exact countP_key_eq_one hnd2 hmem
  · rw [hfe, hmapped]
    exact paramsLookup_of_mem_of_nodup hnd2 hmem

/-- Example filter mapping for the C2 witness: a nested date-range filter
next to a flat page value. -/
def c2ExampleFilters : List (String × JVal) :=
  [("date_filter", JVal.vObj
      [("start", JVal.vStr "2023-01-01"), ("end", JVal.vStr "2023-12-31")]),
   ("page", JVal.vNum 2)]

/-- Witness for C2 at the nested leaf `date_filter[start]`. -/
theorem nested_bracket_path_serialization_witness :
    (["date_filter", "start"], JVal.vStr "2023-01-01") ∈
      leavesOf c2ExampleFilters ∧
    (DPWF.buildUrlParams c2ExampleFilters).countP
      (fun q => q.1 == bracketKey ["date_filter", "start"]) = 1 ∧
    paramsLookup (DPWF.buildUrlParams c2ExampleFilters)
      (bracketKey ["date_filter", "start"]) = some "2023-01-01" := by
  refine ⟨by simp [c2ExampleFilters, leavesOf], ?_, ?_⟩
  · exact (nested_bracket_path_serialization c2ExampleFilters
      ["date_filter", "start"] (JVal.vStr "2023-01-01") (by decide)
      (by simp [c2ExampleFilters, truthyLeafParams, mkKey]; decide)
      (by simp [c2ExampleFilters, leavesOf]) (by decide)).2.1
  · have h := (nested_bracket_path_serialization c2ExampleFilters
      ["date_filter", "start"] (JVal.vStr "2023-01-01") (by decide)
      (by simp [c2ExampleFilters, truthyLeafParams, mkKey]; decide)
      (by simp [c2ExampleFilters, leavesOf]) (by decide)).2.2
    rwa [show jvalToString (JVal.vStr "2023-01-01") = "2023-01-01" from
      by rw [jvalToString]] at h

/-- C3: a filter value of `null` or `undefined` at any nesting depth never
produces a query parameter.  In the nested variant the leaf's
bracket-concatenated key is absent from the output (the `Nodup` hypothesis
is the no-collision serialization invariant over all leaves); in the flat
`QueryMaster` variant, a top-level nullish value is falsy, so its key is
skipped. -/
theorem null_undefined_never_emitted (fs : List (String × JVal))
    (p : List String) (v : JVal) (hne : "" ∉ fs.map Prod.fst)
    (hnd : ((leavesOf fs).map (fun q => bracketKey q.1)).Nodup)
    (hleaf : (p, v) ∈ leavesOf fs)
    (hv : v = JVal.vNull ∨ v = JVal.vUndef) :
    paramsLookup (DPWF.buildUrlParams fs) (bracketKey p) = none ∧
    (∀ k, (fs.map Prod.fst).Nodup → lookupVal fs k = some v →
      paramsLookup (QM.buildUrlParams fs) k = none) := by
  constructor
  · have hkmem : bracketKey p ∉ (truthyLeafParams "" fs).map Prod.fst := by
      rw [keys_truthyLeafParams fs hne]
      intro hmem
      rcases List.mem_map.mp hmem with ⟨q, hq, hqk⟩
      have hqt : truthy q.2 = true := by simpa using List.of_mem_filter hq
      have heq : q = (p, v) :=
        List.inj_on_of_nodup_map hnd (List.mem_of_mem_filter hq) hleaf hqk
      rw [heq] at hqt
      rcases hv with h | h <;> rw [h] at hqt <;> simp [truthy] at hqt
    rw [DPWF.buildUrlParams,
      paramsLookup_appendQueryParams_not_mem "" fs [] hkmem]
    rfl
  · intro k hndk hlk
    rw [QM.buildUrlParams]
    refine paramsLookup_appendFlatParams_none [] hndk hlk ?_ rfl
    rcases hv with h | h <;> rw [h] <;> simp [truthy]

/-- Example filter mapping for the C3 witness: a nested `null` under
`a[b]` and a flat top-level `null` under `d`. -/
def c3ExampleFilters : List (String × JVal) :=
  [("a", JVal.vObj [("b", JVal.vNull), ("c", JVal.vStr "x")]),
   ("d", JVal.vNull)]

/-- Witness for C3: neither the nested null leaf `a[b]` nor the flat null
key `d` appears in either variant's query string. -/
theorem null_undefined_never_emitted_witness :
    (["a", "b"], JVal.vNull) ∈ leavesOf c3ExampleFilters ∧
    paramsLookup (DPWF.buildUrlParams c3ExampleFilters)
      (bracketKey ["a", "b"]) = none ∧
    paramsLookup (QM.buildUrlParams c3ExampleFilters) "d" = none := by
  refine ⟨by simp [c3ExampleFilters, leavesOf], ?_, ?_⟩
  · exact (null_undefined_never_emitted c3ExampleFilters ["a", "b"]
      JVal.vNull (by decide)
      (by simp [c3ExampleFilters, leavesOf, bracketKey])
      (by simp [c3ExampleFilters, leavesOf]) (Or.inl rfl)).1
  · exact (null_undefined_never_emitted c3ExampleFilters ["a", "b"]
      JVal.vNull (by decide)
      (by simp [c3ExampleFilters, leavesOf, bracketKey])
      (by simp [c3ExampleFilters, leavesOf]) (Or.inl rfl)).2 "d"
      (by decide) rfl
